import Mathlib

/-!
Verification development for the parcel-to-volume massing pipeline
(`batch_massing.py`, `volume_generator.py`).

Modelling conventions:
* Python floats are modelled as exact rationals (`ℚ`); the float literal
  `1e-9` used as a degeneracy threshold in the source becomes `eps = 1/10^9`.
* Shapely polygons are modelled by their exterior coordinate ring
  (a `List (ℚ × ℚ)` that, when non-empty, repeats the first vertex at the
  end, exactly as `polygon.exterior.coords` does); holes are ignored, as the
  extruder itself does.  A polygon's `.area` is the absolute shoelace area of
  the exterior ring.
* The external geometry engine's inward buffering (`poly.buffer(-setback)`)
  and the oriented-bounding-rectangle metrics (`parcel_metrics`) are not
  reimplemented; the batch orchestrator is parametrised over them as function
  arguments (`bufferFn`, `metricsFn`), so every theorem about the
  orchestrator's own logic holds for an arbitrary behaviour of the engine.
* `math.sqrt` appears in the source only as the uniform scale factor
  `sqrt(min(target/area, 1))`, which is immediately squared by any area
  computation.  Footprints are therefore represented as a base ring together
  with the squared scale factor (`SPoly`), whose area is `s2 * ringArea`;
  the lemma `ringCross_scaleRingAbout` proves that uniformly scaling a closed
  ring about any centre by a rational factor `s` multiplies the shoelace area
  by `s^2`, which is exactly the fact this representation encodes.
* Python exceptions are modelled by `Except String`.
-/

/-- The numeric degeneracy threshold `1e-9` used throughout the source. -/
def eps : ℚ := 1 / 10 ^ 9

/-! ## Loose numeric parsing (`batch_massing._to_number` and helpers) -/

/-- The value of a digit string, most significant digit first. -/
def digitsVal (ds : List Char) : ℕ :=
  ds.foldl (fun a c => 10 * a + (c.toNat - 48)) 0

/-- A scanned numeric token: sign, all mantissa digits as one natural
number, the number of fractional digits, and the (signed) exponent.
Keeping the scan at `Char`/`ℕ`/`ℤ` level makes it kernel-evaluable. -/
structure NumTok where
  neg : Bool
  mant : ℕ
  frac : ℕ
  exp : ℤ
deriving DecidableEq

/-- One greedy match attempt of the Python regular expression
`[-+]?\d*\.?\d+(?:[eE][-+]?\d+)?` at the head of the character list,
with the backtracking behaviour of `re` (a trailing bare dot or a bare
exponent marker is left out of the match). -/
def scanAt (cs : List Char) : Option NumTok :=
  let sgn : Bool × List Char :=
    match cs with
    | '-' :: t => (true, t)
    | '+' :: t => (false, t)
    | t => (false, t)
  let d1 := sgn.2.takeWhile Char.isDigit
  let r1 := sgn.2.drop d1.length
  let mant : Option ((ℕ × ℕ) × List Char) :=
    if d1.isEmpty then
      match r1 with
      | '.' :: t =>
        let d2 := t.takeWhile Char.isDigit
        if d2.isEmpty then Option.none
        else some ((digitsVal d2, d2.length), t.drop d2.length)
      | _ => Option.none
    else
      match r1 with
      | '.' :: t =>
        let d2 := t.takeWhile Char.isDigit
        if d2.isEmpty then some ((digitsVal d1, 0), r1)
        else some ((digitsVal (d1 ++ d2), d2.length), t.drop d2.length)
      | _ => some ((digitsVal d1, 0), r1)
  match mant with
  | Option.none => Option.none
  | some (md, r2) =>
    let e : Option ℤ :=
      match r2 with
      | c :: t =>
        if c = 'e' ∨ c = 'E' then
          let es : ℤ × List Char :=
            match t with
            | '-' :: u => (-1, u)
            | '+' :: u => (1, u)
            | u => (1, u)
          let d3 := es.2.takeWhile Char.isDigit
          if d3.isEmpty then Option.none else some (es.1 * (digitsVal d3 : ℤ))
        else Option.none
      | [] => Option.none
    some ⟨sgn.1, md.1, md.2, e.getD 0⟩

/-- Leftmost match: scan the start positions left to right, as
`re.search` does. -/
def scanFirst : List Char → Option NumTok
  | [] => Option.none
  | c :: t =>
    match scanAt (c :: t) with
    | some tok => some tok
    | Option.none => scanFirst t

/-- The rational value of a scanned token (Python's `float()` of the
matched text, taken exactly). -/
def tokVal (t : NumTok) : ℚ :=
  (if t.neg then -1 else 1) * (t.mant : ℚ) / (10 : ℚ) ^ t.frac * (10 : ℚ) ^ t.exp

/-- The first number occurring in a character list, if any. -/
def findNumber (cs : List Char) : Option ℚ :=
  (scanFirst cs).map tokVal

/-- Python's `str.strip()` on a character list. -/
def pyStrip (cs : List Char) : List Char :=
  ((cs.dropWhile Char.isWhitespace).reverse.dropWhile Char.isWhitespace).reverse

/-- The values the ratio normalizers accept: `None`, a number
(int/float), or an arbitrary string. -/
inductive PyVal where
  | none : PyVal
  | num : ℚ → PyVal
  | str : String → PyVal
deriving DecidableEq

/-- `batch_massing._to_number`: parse numbers from `60`, `'60'`, `'60%'`,
`' 180 % '`, `'2,500'` ...; return `default` if the input is missing,
blank, or contains no numeric token. -/
def toNumber (x : PyVal) (default : Option ℚ) : Option ℚ :=
  match x with
  | .none => default
  | .num q => some q
  | .str s =>
    let t := pyStrip s.toList
    if t.isEmpty then default
    else
      match findNumber (t.filter (fun c => c ≠ ',')) with
      | some v => some v
      | Option.none => default

/-- The parse result of an input on its own (no default): `toNumber x`
with an empty default. -/
def parsesTo (x : PyVal) : Option ℚ :=
  toNumber x Option.none

/-- `batch_massing._to_ratio` (the coverage-ratio normalizer, source name
kept up to Lean naming): percent heuristic above `1.0`, then clamp to
`[0, 1]`. -/
def toBcr (x : PyVal) (default : ℚ) : ℚ :=
  let v := (toNumber x (some default)).getD default
  let v2 := if v > 1 then v / 100 else v
  max 0 (min v2 1)

/-- `batch_massing._to_far` (the floor-area-ratio normalizer): percent
heuristic above `10.0`, then clamp to non-negative only. -/
def toFar (x : PyVal) (default : ℚ) : ℚ :=
  let v := (toNumber x (some default)).getD default
  let v2 := if v > 10 then v / 100 else v
  max 0 v2

/-! ### Shared facts about the parsers -/

/-- `toNumber` with a present default is the parse result with the default
filled in. -/
theorem toNumber_some (x : PyVal) (d : ℚ) :
    toNumber x (some d) = some ((parsesTo x).getD d) := by
  cases x with
  | none => rfl
  | num q => rfl
  | str s =>
    simp only [toNumber, parsesTo]
    split
    · rfl
    · cases h : findNumber ((pyStrip s.toList).filter (fun c => c ≠ ',')) <;> simp [h]

/-- Evaluation helper for `toNumber` on a string whose scan succeeds. -/
theorem toNumber_str_eq (s : String) (v : ℚ) (d : Option ℚ)
    (h : findNumber ((pyStrip s.toList).filter (fun c => c ≠ ',')) = some v)
    (hne : (pyStrip s.toList).isEmpty = false) :
    toNumber (.str s) d = some v := by
  simp only [toNumber, hne, Bool.false_eq_true, if_false, h]

/-- The coverage-ratio normalizer, written over the parse result. -/
theorem toBcr_eq (x : PyVal) (d : ℚ) :
    toBcr x d =
      max 0 (min (if ((parsesTo x).getD d) > 1
        then ((parsesTo x).getD d) / 100 else ((parsesTo x).getD d)) 1) := by
  simp only [toBcr, toNumber_some, Option.getD_some]

/-- The floor-area-ratio normalizer, written over the parse result. -/
theorem toFar_eq (x : PyVal) (d : ℚ) :
    toFar x d =
      max 0 (if ((parsesTo x).getD d) > 10
        then ((parsesTo x).getD d) / 100 else ((parsesTo x).getD d)) := by
  simp only [toFar, toNumber_some, Option.getD_some]

/-! ## Planar geometry: shoelace area and uniform scaling -/

/-- A 2D point. -/
abbrev Pt : Type := ℚ × ℚ

/-- Twice the signed (shoelace) area accumulated over consecutive pairs of
a coordinate ring. -/
def ringCross : List Pt → ℚ
  | p :: q :: t => (p.1 * q.2 - q.1 * p.2) + ringCross (q :: t)
  | _ => 0

/-- Shapely's `polygon.area` for a hole-free polygon: the absolute
shoelace area of its exterior ring (the ring repeats its first vertex at
the end). -/
def ringArea (r : List Pt) : ℚ :=
  |ringCross r| / 2

/-- Uniform scaling of a point about a centre `c` by factor `s`
(`shapely.affinity.scale` with `xfact = yfact = s`). -/
def scalePt (c : Pt) (s : ℚ) (p : Pt) : Pt :=
  (c.1 + s * (p.1 - c.1), c.2 + s * (p.2 - c.2))

/-- Uniform scaling of a ring about a centre. -/
def scaleRingAbout (c : Pt) (s : ℚ) (r : List Pt) : List Pt :=
  r.map (scalePt c s)

/-- `ringArea` is non-negative. -/
theorem ringArea_nonneg (r : List Pt) : 0 ≤ ringArea r := by
  have h : (0:ℚ) ≤ |ringCross r| := abs_nonneg _
  simpa [ringArea] using div_nonneg h (by norm_num)

/-- The ring of an empty polygon has zero area. -/
theorem ringArea_nil : ringArea [] = 0 := by
  simp [ringArea, ringCross]

/-- Telescoping form of the shoelace sum under an affine map
`p ↦ s • p + w`: the cross terms contribute `s^2` times the original sum
plus a boundary term that cancels on a closed ring. -/
theorem ringCross_map_affine (s w1 w2 : ℚ) :
    ∀ (l : List Pt) (p : Pt),
      ringCross ((p :: l).map (fun q : Pt => (s * q.1 + w1, s * q.2 + w2))) =
        s ^ 2 * ringCross (p :: l) +
          (s * w2 * p.1 - s * w1 * p.2) -
          (s * w2 * (l.getLastD p).1 - s * w1 * (l.getLastD p).2) := by
  intro l
  induction l with
  | nil =>
    intro p
    simp [ringCross]
  | cons q t ih =>
    intro p
    have hlast : (q :: t).getLastD p = t.getLastD q := List.getLastD_cons p q t
    calc ringCross (((p :: q :: t)).map (fun q : Pt => (s * q.1 + w1, s * q.2 + w2)))
        = ((s * p.1 + w1) * (s * q.2 + w2) - (s * q.1 + w1) * (s * p.2 + w2)) +
            ringCross ((q :: t).map (fun q : Pt => (s * q.1 + w1, s * q.2 + w2))) := by
          simp [ringCross]
      _ = ((s * p.1 + w1) * (s * q.2 + w2) - (s * q.1 + w1) * (s * p.2 + w2)) +
            (s ^ 2 * ringCross (q :: t) +
              (s * w2 * q.1 - s * w1 * q.2) -
              (s * w2 * (t.getLastD q).1 - s * w1 * (t.getLastD q).2)) := by
          rw [ih q]
      _ = s ^ 2 * ringCross (p :: q :: t) +
            (s * w2 * p.1 - s * w1 * p.2) -
            (s * w2 * ((q :: t).getLastD p).1 - s * w1 * ((q :: t).getLastD p).2) := by
          rw [hlast]
          simp only [ringCross]
          ring

/-- Uniformly scaling a closed ring about any centre by a rational factor
`s` multiplies the shoelace sum by `s^2`.  This is the exact sense in
which the `SPoly` area model (`s2 * ringArea`) represents
`affinity.scale(poly, sqrt(s2), sqrt(s2), origin="centroid")`. -/
theorem ringCross_scaleRingAbout (c : Pt) (s : ℚ) (p : Pt) (l : List Pt)
    (hclosed : l.getLastD p = p) :
    ringCross (scaleRingAbout c s (p :: l)) = s ^ 2 * ringCross (p :: l) := by
  have hfun : scalePt c s = fun q : Pt => (s * q.1 + (c.1 - s * c.1), s * q.2 + (c.2 - s * c.2)) := by
    funext q
    simp only [scalePt, Prod.ext_iff]
    constructor <;> ring
  have := ringCross_map_affine s (c.1 - s * c.1) (c.2 - s * c.2) l p
  rw [hclosed] at this
  rw [scaleRingAbout, hfun]
  rw [this]
  ring

/-- Area version of the scaling lemma. -/
theorem ringArea_scaleRingAbout (c : Pt) (s : ℚ) (p : Pt) (l : List Pt)
    (hclosed : l.getLastD p = p) :
    ringArea (scaleRingAbout c s (p :: l)) = s ^ 2 * ringArea (p :: l) := by
  rw [ringArea, ringArea, ringCross_scaleRingAbout c s p l hclosed, abs_mul,
    abs_of_nonneg (sq_nonneg s), mul_div_assoc]

/-! ## Geometry values crossing the pipeline's boundaries -/

/-- A parcel geometry as typed in `batch_massing` (`Polygon | MultiPolygon`),
each polygon by its exterior ring. -/
inductive PolyGeom where
  | poly : List Pt → PolyGeom
  | multi : List (List Pt) → PolyGeom
deriving DecidableEq

/-- Shapely's `is_empty`. -/
def PolyGeom.isEmptyB : PolyGeom → Bool
  | .poly r => r.isEmpty
  | .multi rs => rs.all (·.isEmpty)

/-- Shapely's `.area` (for a multi-piece geometry, the sum of the pieces). -/
def PolyGeom.area : PolyGeom → ℚ
  | .poly r => ringArea r
  | .multi rs => (rs.map ringArea).sum

/-- `max(parts, key=lambda g: g.area)`: the first piece of maximal area. -/
def maxByArea (parts : List (List Pt)) : List Pt :=
  match parts with
  | [] => []
  | p :: t => t.foldl (fun best g => if ringArea best < ringArea g then g else best) p

/-- The filter of `batch_massing._largest_polygon`:
`not g.is_empty and g.area > 1e-9`. -/
def batchParts (rs : List (List Pt)) : List (List Pt) :=
  rs.filter (fun r => !r.isEmpty && decide (eps < ringArea r))

/-- `batch_massing._largest_polygon`: a `Polygon` passes through unchecked;
a `MultiPolygon` keeps the largest piece with area above the threshold, or
raises. -/
def largestPolygonBatch : PolyGeom → Except String (List Pt)
  | .poly r => .ok r
  | .multi rs =>
    let parts := batchParts rs
    if parts.isEmpty then .error "MultiPolygon has no non-empty parts."
    else .ok (maxByArea parts)

/-- A geometry arriving at the extruder's public interface
(`BaseGeometry`): `None`, a polygon, a multi-polygon, or a non-polygonal
geometry (the flag records that geometry's `is_empty`). -/
inductive ExtGeom where
  | none : ExtGeom
  | poly : List Pt → ExtGeom
  | multi : List (List Pt) → ExtGeom
  | other : Bool → ExtGeom
deriving DecidableEq

/-- `geom is None or geom.is_empty`, the first guard of
`volume_generator._largest_polygon`. -/
def ExtGeom.isEmptyB : ExtGeom → Bool
  | .none => true
  | .poly r => r.isEmpty
  | .multi rs => rs.all (·.isEmpty)
  | .other e => e

/-- The filter of `volume_generator._largest_polygon`:
`not g.is_empty and g.area > 0`. -/
def vgParts (rs : List (List Pt)) : List (List Pt) :=
  rs.filter (fun r => !r.isEmpty && decide (0 < ringArea r))

/-- `volume_generator._largest_polygon`. -/
def largestPolygonVG (g : ExtGeom) : Except String (List Pt) :=
  if g.isEmptyB then .error "Empty geometry (cannot extrude)."
  else
    match g with
    | .none => .error "Empty geometry (cannot extrude)."
    | .poly r => .ok r
    | .multi rs =>
      let parts := vgParts rs
      if parts.isEmpty then .error "MultiPolygon has no non-empty parts."
      else .ok (maxByArea parts)
    | .other _ => .error "Unsupported geometry type for extrusion"

/-- A 3D point. -/
abbrev Pt3 : Type := ℚ × ℚ × ℚ

/-- Out-of-range default for list indexing (indices used by the extruder
are always in range). -/
def pt3zero : Pt3 := (0, 0, 0)

/-- `volume_generator.extrude_polygon`: bottom ring at `z = 0`, top ring
at `z = height` reversed, one quadrilateral per boundary edge. -/
def extrude_polygon (geom : ExtGeom) (height : ℚ) : Except String (List (List Pt3)) :=
  if height ≤ 0 then .error "height must be positive"
  else
    match largestPolygonVG geom with
    | .error e => .error e
    | .ok r =>
      let coords2d := r.dropLast
      if coords2d.length < 3 then .error "Polygon exterior has fewer than 3 vertices"
      else
        let bottom := coords2d.map (fun p => (p.1, p.2, (0 : ℚ)))
        let top := coords2d.map (fun p => (p.1, p.2, height))
        let n := coords2d.length
        let sides := (List.range n).map (fun i =>
          [bottom.getD i pt3zero, bottom.getD ((i + 1) % n) pt3zero,
           top.getD ((i + 1) % n) pt3zero, top.getD i pt3zero])
        .ok (bottom :: top.reverse :: sides)

/-! ## The batch pipeline (`batch_massing.run_batch`) -/

/-- A footprint polygon: a base exterior ring together with the square of
the uniform scale factor applied about its centroid (`s2 = 1` when
unscaled).  Its area is `s2 * ringArea ring`, which
`ringArea_scaleRingAbout` shows is the area of the actually scaled ring;
emptiness and vertex count are those of the base ring, which uniform
scaling preserves. -/
structure SPoly where
  ring : List Pt
  s2 : ℚ
deriving DecidableEq

/-- The scaled polygon's area. -/
def SPoly.area (p : SPoly) : ℚ := p.s2 * ringArea p.ring

/-- The scaled polygon's `is_empty`. -/
def SPoly.isEmptyB (p : SPoly) : Bool := p.ring.isEmpty

/-- `batch_massing._scale_to_area`: uniformly scale about the centroid to
match the target area, but only ever shrink; the code's
`poly.buffer(-1e9)` escape hatch for a degenerate target produces an
(effectively) empty polygon, modelled as the empty ring. -/
def scale_to_area (p : SPoly) (target : ℚ) : SPoly :=
  if p.isEmptyB ∨ p.area ≤ eps then p
  else if target ≤ eps then ⟨[], 1⟩
  else ⟨p.ring, p.s2 * min (target / p.area) 1⟩

/-- `run_batch` lines 140-144: inward buffer when the setback is nonzero
(Python truthiness), fall back to the unshrunk parcel when the result is
empty or degenerate, then reduce to the largest piece.  `bufferFn r d`
models the external engine's `r.buffer(-d)`. -/
def deriveBuildable (bufferFn : List Pt → ℚ → PolyGeom) (poly : List Pt) (setback : ℚ) :
    Except String (List Pt) :=
  let b := if setback ≠ 0 then bufferFn poly setback else .poly poly
  let b2 := if b.isEmptyB ∨ b.area ≤ eps then PolyGeom.poly poly else b
  largestPolygonBatch b2

/-- `run_batch` lines 146-152: scale the buildable region to the coverage
target, falling back to the unscaled region when the result is empty or
degenerate. -/
def deriveFootprint (buildable : List Pt) (plot_area bcr : ℚ) : SPoly :=
  let target := plot_area * bcr
  let fp := scale_to_area ⟨buildable, 1⟩ target
  if fp.isEmptyB ∨ fp.area ≤ eps then ⟨buildable, 1⟩ else fp

/-- `run_batch` lines 158-160: the floor count — ceiling division of the
permitted floor area by the footprint area, raised to the minimum, then
capped at the maximum. -/
def floor_count (plot_area far fp_area : ℚ) (min_floors max_floors : ℤ) : ℤ :=
  min (max ⌈plot_area * far / fp_area⌉ min_floors) max_floors

/-- `extrude_polygon` applied to a (possibly scaled) footprint polygon,
tracked by its face count: uniform scaling preserves emptiness and the
vertex count, which, with the height, are all the extruder's control flow
reads. -/
def extrudeFaceCount (p : SPoly) (height : ℚ) : Except String ℕ :=
  if height ≤ 0 then .error "height must be positive"
  else if p.isEmptyB then .error "Empty geometry (cannot extrude)."
  else if p.ring.dropLast.length < 3 then .error "Polygon exterior has fewer than 3 vertices"
  else .ok (p.ring.dropLast.length + 2)

/-- `parcel_metrics` output as read by `run_batch` (always contains these
keys). -/
structure Metrics where
  area : ℚ
  width : ℚ
  depth : ℚ
  aspect : Option ℚ
deriving DecidableEq

/-- A parcel's raw attribute mapping. -/
abbrev Props : Type := List (String × PyVal)

/-- The keyword configuration of `run_batch`, with its Python defaults. -/
structure BatchConfig where
  setback : ℚ := 1 / 2
  floor_height : ℚ := 36 / 10
  min_floors : ℤ := 1
  max_floors : ℤ := 60
  fallback_bcr : ℚ := 6 / 10
  fallback_far : ℚ := 5 / 2
deriving DecidableEq

/-- One per-parcel result record, in the field order of the source. -/
structure Row where
  id : String
  area : ℚ
  width : ℚ
  depth : ℚ
  aspect : Option ℚ
  building_r : ℚ
  floor_r : ℚ
  setback : ℚ
  footprint_area : ℚ
  floors : ℤ
  floor_height : ℚ
  height : ℚ
deriving DecidableEq

/-- One output building: id, footprint, height, extruded faces (tracked
by their count, see `extrudeFaceCount`). -/
structure Building where
  id : String
  footprint : SPoly
  height : ℚ
  faceCount : ℕ
deriving DecidableEq

/-- `run_batch` lines 131-138: a present, non-`None`, non-empty-string
`floor_r` attribute wins; otherwise the pluggable rule, falling back to
the default on any exception. -/
def resolveFar (props : Props) (far_rule : Metrics → Except String ℚ) (m : Metrics)
    (fallback : ℚ) : ℚ :=
  match props.lookup "floor_r" with
  | some v =>
    if v = PyVal.none ∨ v = PyVal.str "" then
      match far_rule m with
      | .ok f => f
      | .error _ => fallback
    else toFar v fallback
  | Option.none =>
    match far_rule m with
    | .ok f => f
    | .error _ => fallback

/-- The body of `run_batch`'s per-parcel loop. -/
def processParcel (bufferFn : List Pt → ℚ → PolyGeom)
    (metricsFn : List Pt → Except String Metrics)
    (far_rule : Metrics → Except String ℚ)
    (cfg : BatchConfig) (pid : String) (geom : PolyGeom) (props : Props) :
    Except String (Row × Building) :=
  match largestPolygonBatch geom with
  | .error e => .error e
  | .ok poly =>
    match metricsFn poly with
    | .error e => .error e
    | .ok m =>
      let bcr := toBcr ((props.lookup "building_r").getD (.num cfg.fallback_bcr)) cfg.fallback_bcr
      let far := resolveFar props far_rule m cfg.fallback_far
      match deriveBuildable bufferFn poly cfg.setback with
      | .error e => .error e
      | .ok buildable =>
        let plot_area := max (ringArea poly) eps
        let footprint := deriveFootprint buildable plot_area bcr
        let fp_area := max footprint.area eps
        let floors := floor_count plot_area far fp_area cfg.min_floors cfg.max_floors
        let height := (floors : ℚ) * cfg.floor_height
        match extrudeFaceCount footprint height with
        | .error e => .error e
        | .ok faces =>
          .ok ({ id := pid, area := m.area, width := m.width, depth := m.depth,
                 aspect := m.aspect, building_r := bcr, floor_r := far,
                 setback := cfg.setback, footprint_area := footprint.area,
                 floors := floors, floor_height := cfg.floor_height, height := height },
               { id := pid, footprint := footprint, height := height, faceCount := faces })

/-- `batch_massing.run_batch`: the per-parcel loop in input order; the
first uncaught exception aborts the batch. -/
def run_batch (bufferFn : List Pt → ℚ → PolyGeom)
    (metricsFn : List Pt → Except String Metrics)
    (far_rule : Metrics → Except String ℚ)
    (cfg : BatchConfig) :
    List (String × PolyGeom × Props) → Except String (List Row × List Building)
  | [] => .ok ([], [])
  | (pid, geom, props) :: rest =>
    match processParcel bufferFn metricsFn far_rule cfg pid geom props with
    | .error e => .error e
    | .ok (row, b) =>
      match run_batch bufferFn metricsFn far_rule cfg rest with
      | .error e => .error e
      | .ok (rows, bs) => .ok (row :: rows, b :: bs)

/-! ## The single-parcel variant (`volume_generator.compute_buildable_volume`) -/

/-- The result record of `compute_buildable_volume`. -/
structure VolumeResult where
  buildable_polygon : PolyGeom
  height : ℚ
  floor_count : ℤ
  buildable_area : ℚ
deriving DecidableEq

/-- `volume_generator.compute_buildable_volume`: validates its
configuration at entry, raises when the setback empties the parcel, and
sizes floors by truncating integer division with only a lower clamp. -/
def compute_buildable_volume (bufferFn : PolyGeom → ℚ → PolyGeom) (polygon : PolyGeom)
    (far : ℚ) (setback floor_height : ℚ) (min_floors : ℤ) : Except String VolumeResult :=
  if far ≤ 0 then .error "FAR must be positive"
  else if floor_height ≤ 0 then .error "floor_height must be positive"
  else if min_floors < 1 then .error "min_floors must be >= 1"
  else if polygon.isEmptyB then .error "Input parcel geometry is empty"
  else
    let buildable := if setback ≠ 0 then bufferFn polygon setback else polygon
    if buildable.isEmptyB ∨ buildable.area ≤ eps then
      .error "Setback too large: buildable footprint becomes empty"
    else
      let floors := max ⌊polygon.area * far / buildable.area⌋ min_floors
      .ok ⟨buildable, (floors : ℚ) * floor_height, floors, buildable.area⟩

/-! ## Concrete instances used by witnesses and counterexamples -/

/-- A 10 by 10 square parcel ring. -/
def parcelSquare : List Pt := [(0, 0), (10, 0), (10, 10), (0, 10), (0, 0)]

/-- A buffer oracle that returns the parcel unchanged. -/
def bufferNoop : List Pt → ℚ → PolyGeom := fun r _ => .poly r

/-- A buffer oracle with a fixed degenerate answer. -/
def bufferEmpty : List Pt → ℚ → PolyGeom := fun _ _ => .poly []

/-- An identity buffer oracle for the single-parcel variant. -/
def bufferIdent : PolyGeom → ℚ → PolyGeom := fun g _ => g

/-- A metrics oracle that reports the ring's shoelace area. -/
def metricsArea : List Pt → Except String Metrics :=
  fun r => .ok ⟨ringArea r, 0, 0, Option.none⟩

/-- A rule oracle that always raises (forcing the default-FAR fallback). -/
def ruleFail : Metrics → Except String ℚ := fun _ => .error "rule failed"

/-! ## Further shared evaluation helpers for the parsers -/

/-- Evaluate `parsesTo` on a string with a successful scan. -/
theorem parsesTo_str_some (s : String) (tok : NumTok) (v : ℚ)
    (hs : scanFirst ((pyStrip s.toList).filter (fun c => c ≠ ',')) = some tok)
    (hv : tokVal tok = v)
    (hne : (pyStrip s.toList).isEmpty = false) :
    parsesTo (.str s) = some v := by
  have h : findNumber ((pyStrip s.toList).filter (fun c => c ≠ ',')) = some v := by
    rw [findNumber, hs, Option.map_some', hv]
  simp only [parsesTo, toNumber, hne, Bool.false_eq_true, if_false, h]

/-- Evaluate `parsesTo` on a non-blank string with no numeric token. -/
theorem parsesTo_str_none (s : String)
    (hne : (pyStrip s.toList).isEmpty = false)
    (hs : scanFirst ((pyStrip s.toList).filter (fun c => c ≠ ',')) = Option.none) :
    parsesTo (.str s) = Option.none := by
  have h : findNumber ((pyStrip s.toList).filter (fun c => c ≠ ',')) = Option.none := by
    rw [findNumber, hs]; rfl
  simp only [parsesTo, toNumber, hne, Bool.false_eq_true, if_false, h]

/-- `'60%'` parses to `60`. -/
theorem parsesTo_sixty_pct : parsesTo (.str "60%") = some 60 :=
  parsesTo_str_some "60%" ⟨false, 60, 0, 0⟩ 60 (by decide) (by norm_num [tokVal]) (by decide)

/-- `'180%'` parses to `180`. -/
theorem parsesTo_oneeighty_pct : parsesTo (.str "180%") = some 180 :=
  parsesTo_str_some "180%" ⟨false, 180, 0, 0⟩ 180 (by decide) (by norm_num [tokVal]) (by decide)

/-- `'abc'` parses to nothing. -/
theorem parsesTo_abc : parsesTo (.str "abc") = Option.none :=
  parsesTo_str_none "abc" (by decide) (by decide)

/-! ## Claim C3 -/

/-- C3 counterexample: the code divides any parsed value above `1.0` by
`100` before clamping, so `coverage_ratio(1.2)` is `0.012`, not the `1.0`
the claim states. -/
theorem claim_C3_counterexample :
    toBcr (.num (6 / 5)) (6 / 10) = 3 / 250 ∧ toBcr (.num (6 / 5)) (6 / 10) ≠ 1 := by
  rw [toBcr_eq]
  norm_num [parsesTo, toNumber]

/-- C3 (amended): the coverage-ratio normalizer applies the
divide-by-100 heuristic to any parsed value exceeding `1.0` and clamps
to `[0, 1]`; `coverage_ratio(60) = 0.6`, `coverage_ratio("60%") = 0.6`,
`coverage_ratio(1.2) = 0.012` (treated as the percentage `1.2%`, not
clamped to `1.0`), and `coverage_ratio(-0.3) = 0` (clamped). -/
theorem claim_C3_amended :
    (∀ (x : PyVal) (d v : ℚ), parsesTo x = some v →
      toBcr x d = max 0 (min (if v > 1 then v / 100 else v) 1)) ∧
    toBcr (.num 60) (6 / 10) = 6 / 10 ∧
    toBcr (.str "60%") (6 / 10) = 6 / 10 ∧
    toBcr (.num (6 / 5)) (6 / 10) = 3 / 250 ∧
    toBcr (.num (-3 / 10)) (6 / 10) = 0 := by
  refine ⟨?_, ?_, ?_, ?_, ?_⟩
  · intro x d v hv
    rw [toBcr_eq, hv, Option.getD_some]
  · rw [toBcr_eq]; norm_num [parsesTo, toNumber]
  · rw [toBcr_eq, parsesTo_sixty_pct]; norm_num
  · rw [toBcr_eq]; norm_num [parsesTo, toNumber]
  · rw [toBcr_eq]; norm_num [parsesTo, toNumber]

/-- C3 witness: the general form of the amended claim, instantiated at
the parsed input `60`. -/
theorem claim_C3_witness :
    parsesTo (.num 60) = some 60 ∧
    toBcr (.num 60) (6 / 10) = max 0 (min (if (60 : ℚ) > 1 then 60 / 100 else 60) 1) :=
  ⟨rfl, claim_C3_amended.1 (.num 60) (6 / 10) 60 rfl⟩

/-! ## Claim C5 -/

/-- C5: the floor-area-ratio normalizer applies the divide-by-100
heuristic to any parsed value exceeding `10.0` and clamps to
non-negative only; `floor_area_ratio("180%") = 1.8`,
`floor_area_ratio(2.5) = 2.5`, `floor_area_ratio(180) = 1.8`. -/
theorem claim_C5 :
    (∀ (x : PyVal) (d v : ℚ), parsesTo x = some v →
      toFar x d = max 0 (if v > 10 then v / 100 else v)) ∧
    toFar (.str "180%") (5 / 2) = 9 / 5 ∧
    toFar (.num (5 / 2)) (5 / 2) = 5 / 2 ∧
    toFar (.num 180) (5 / 2) = 9 / 5 := by
  refine ⟨?_, ?_, ?_, ?_⟩
  · intro x d v hv
    rw [toFar_eq, hv, Option.getD_some]
  · rw [toFar_eq, parsesTo_oneeighty_pct]; norm_num
  · rw [toFar_eq]; norm_num [parsesTo, toNumber]
  · rw [toFar_eq]; norm_num [parsesTo, toNumber]

/-- C5 witness: the general form instantiated at the parsed input `180`. -/
theorem claim_C5_witness :
    parsesTo (.num 180) = some 180 ∧
    toFar (.num 180) (5 / 2) = max 0 (if (180 : ℚ) > 10 then 180 / 100 else 180) :=
  ⟨rfl, claim_C5.1 (.num 180) (5 / 2) 180 rfl⟩

/-! ## Claim C8 -/

/-- C8: the normalizers are total (they are functions in this model, with
no error outcome), and an input that parses to nothing — missing, blank,
or token-free — resolves to the caller-supplied default: `toNumber`
returns the default itself, and each normalizer returns exactly what it
returns on the default as a direct numeric input. -/
theorem claim_C8 :
    ∀ (x : PyVal) (d : ℚ), parsesTo x = Option.none →
      toNumber x (some d) = some d ∧
      toBcr x d = toBcr (.num d) d ∧
      toFar x d = toFar (.num d) d := by
  intro x d h
  refine ⟨?_, ?_, ?_⟩
  · rw [toNumber_some, h]; rfl
  · rw [toBcr_eq, toBcr_eq, h]
    simp [parsesTo, toNumber]
  · rw [toFar_eq, toFar_eq, h]
    simp [parsesTo, toNumber]

/-- C8 witness: the unparseable string `'abc'` resolves to the default
`0.6` in all three parsers. -/
theorem claim_C8_witness :
    parsesTo (.str "abc") = Option.none ∧
    toNumber (.str "abc") (some (6 / 10)) = some (6 / 10) ∧
    toBcr (.str "abc") (6 / 10) = toBcr (.num (6 / 10)) (6 / 10) ∧
    toFar (.str "abc") (6 / 10) = toFar (.num (6 / 10)) (6 / 10) :=
  ⟨parsesTo_abc,
   (claim_C8 (.str "abc") (6 / 10) parsesTo_abc).1,
   (claim_C8 (.str "abc") (6 / 10) parsesTo_abc).2.1,
   (claim_C8 (.str "abc") (6 / 10) parsesTo_abc).2.2⟩

/-! ## Claim C9 -/

/-- C9: for every input and default, the coverage-ratio normalizer's
result lies in `[0, 1]` and the floor-area-ratio normalizer's result is
non-negative; the fallback default goes through the same percent
heuristic and clamps, so the out-of-range default `60` resolves to
`0.6`, not to `60` or to `1.0`. -/
theorem claim_C9 :
    (∀ (x : PyVal) (d : ℚ), 0 ≤ toBcr x d ∧ toBcr x d ≤ 1) ∧
    (∀ (x : PyVal) (d : ℚ), 0 ≤ toFar x d) ∧
    toBcr .none 60 = 6 / 10 ∧
    toBcr .none 60 ≠ 60 ∧
    toBcr .none 60 ≠ 1 := by
  have h60 : toBcr .none 60 = 6 / 10 := by
    rw [toBcr_eq]; norm_num [parsesTo, toNumber]
  refine ⟨?_, ?_, h60, ?_, ?_⟩
  · intro x d
    rw [toBcr_eq]
    exact ⟨le_max_left _ _, max_le (by norm_num) (min_le_right _ _)⟩
  · intro x d
    rw [toFar_eq]
    exact le_max_left _ _
  · rw [h60]; norm_num
  · rw [h60]; norm_num

/-! ## Shared evaluation facts for the concrete instances -/

/-- The square parcel's area. -/
theorem ringArea_square : ringArea parcelSquare = 100 := by
  norm_num [ringArea, ringCross, parcelSquare]

/-- A valid demo configuration (no setback, 3.6 m floors, 1 to 60
floors, the source's fallback ratios). -/
def cfgDemo : BatchConfig :=
  { setback := 0
    floor_height := 36 / 10
    min_floors := 1
    max_floors := 60
    fallback_bcr := 6 / 10
    fallback_far := 5 / 2 }

/-- A configuration whose floor height is invalid (`-1`). -/
def cfgNegFH : BatchConfig :=
  { setback := 1 / 2
    floor_height := -1
    min_floors := 1
    max_floors := 60
    fallback_bcr := 6 / 10
    fallback_far := 5 / 2 }

/-- A configuration whose maximum floor count (2) is below its minimum
(3). -/
def cfgMaxMin : BatchConfig :=
  { setback := 0
    floor_height := 36 / 10
    min_floors := 3
    max_floors := 2
    fallback_bcr := 6 / 10
    fallback_far := 5 / 2 }

theorem deriveBuildable_sq : deriveBuildable bufferNoop parcelSquare 0 = .ok parcelSquare := by
  simp [deriveBuildable, largestPolygonBatch]

theorem toBcr_default : toBcr (.num (6 / 10)) (6 / 10) = 3 / 5 := by
  rw [toBcr_eq]; norm_num [parsesTo, toNumber]

theorem toBcr_zero : toBcr (.num 0) (6 / 10) = 0 := by
  rw [toBcr_eq]; norm_num [parsesTo, toNumber]

theorem max_hundred_eps : max (100 : ℚ) eps = 100 := max_eq_left (by norm_num [eps])

theorem max_sixty_eps : max (60 : ℚ) eps = 60 := max_eq_left (by norm_num [eps])

/-- Scaling the square to 60% of its area. -/
theorem footprint_demo :
    deriveFootprint parcelSquare 100 (3 / 5) = ⟨parcelSquare, 3 / 5⟩ := by
  have hne : parcelSquare.isEmpty = false := rfl
  have hnil : parcelSquare ≠ [] := by unfold parcelSquare; exact List.cons_ne_nil _ _
  simp only [deriveFootprint, scale_to_area, SPoly.isEmptyB, SPoly.area, ringArea_square, hne]
  norm_num [eps, ringArea_square, hnil]

/-- A zero coverage target makes the scaled candidate empty, so the
footprint falls back to the whole buildable region. -/
theorem footprint_zero :
    deriveFootprint parcelSquare 100 0 = ⟨parcelSquare, 1⟩ := by
  have hne : parcelSquare.isEmpty = false := rfl
  simp only [deriveFootprint, scale_to_area, SPoly.isEmptyB, SPoly.area, ringArea_square, hne]
  norm_num [eps, ringArea_square]

theorem area_demo : SPoly.area ⟨parcelSquare, 3 / 5⟩ = 60 := by
  rw [SPoly.area, ringArea_square]; norm_num

theorem area_one : SPoly.area ⟨parcelSquare, 1⟩ = 100 := by
  rw [SPoly.area, ringArea_square]; norm_num

theorem ceil_demo : ⌈(100 : ℚ) * (5 / 2) / 60⌉ = (5 : ℤ) := by
  norm_num [Int.ceil_eq_iff]

theorem fc_demo : floor_count 100 (5 / 2) 60 1 60 = 5 := by
  unfold floor_count
  rw [ceil_demo]
  omega

theorem fc_bcr_zero : floor_count 100 (5 / 2) 100 1 60 = 3 := by
  unfold floor_count
  have hc : ⌈(100 : ℚ) * (5 / 2) / 100⌉ = (3 : ℤ) := by norm_num [Int.ceil_eq_iff]
  rw [hc]
  omega

theorem fc_maxmin : floor_count 100 (5 / 2) 60 3 2 = 2 := by
  unfold floor_count
  rw [ceil_demo]
  omega

theorem cast_height_demo : ((5 : ℤ) : ℚ) * (36 / 10) = 18 := by norm_num

theorem cast_height_three : ((3 : ℤ) : ℚ) * (36 / 10) = 54 / 5 := by norm_num

theorem cast_height_two : ((2 : ℤ) : ℚ) * (36 / 10) = 36 / 5 := by norm_num

theorem efc_demo : extrudeFaceCount ⟨parcelSquare, 3 / 5⟩ 18 = .ok 6 := by
  have hne : SPoly.isEmptyB ⟨parcelSquare, 3 / 5⟩ = false := rfl
  have hdl : (SPoly.ring ⟨parcelSquare, 3 / 5⟩).dropLast.length = 4 := rfl
  simp only [extrudeFaceCount, hne, hdl]
  norm_num

theorem efc_bcr_zero : extrudeFaceCount ⟨parcelSquare, 1⟩ (54 / 5) = .ok 6 := by
  have hne : SPoly.isEmptyB ⟨parcelSquare, 1⟩ = false := rfl
  have hdl : (SPoly.ring ⟨parcelSquare, 1⟩).dropLast.length = 4 := rfl
  simp only [extrudeFaceCount, hne, hdl]
  norm_num

theorem efc_maxmin : extrudeFaceCount ⟨parcelSquare, 3 / 5⟩ (36 / 5) = .ok 6 := by
  have hne : SPoly.isEmptyB ⟨parcelSquare, 3 / 5⟩ = false := rfl
  have hdl : (SPoly.ring ⟨parcelSquare, 3 / 5⟩).dropLast.length = 4 := rfl
  simp only [extrudeFaceCount, hne, hdl]
  norm_num

/-- The demo batch's result row. -/
def rowDemo : Row :=
  { id := "p1"
    area := 100
    width := 0
    depth := 0
    aspect := Option.none
    building_r := 3 / 5
    floor_r := 5 / 2
    setback := 0
    footprint_area := 60
    floors := 5
    floor_height := 36 / 10
    height := 18 }

/-- The demo batch's result building. -/
def bldDemo : Building :=
  { id := "p1", footprint := ⟨parcelSquare, 3 / 5⟩, height := 18, faceCount := 6 }

/-- Full evaluation of the per-parcel pipeline on the demo instance. -/
theorem process_demo :
    processParcel bufferNoop metricsArea ruleFail cfgDemo "p1" (.poly parcelSquare) [] =
      .ok (rowDemo, bldDemo) := by
  simp only [processParcel, cfgDemo, largestPolygonBatch, metricsArea, resolveFar, ruleFail,
    List.lookup, Option.getD, toBcr_default, deriveBuildable_sq, ringArea_square,
    max_hundred_eps, footprint_demo, area_demo, max_sixty_eps, fc_demo, cast_height_demo,
    efc_demo, rowDemo, bldDemo]

/-- The result row for the square parcel with attribute `building_r = 0`:
the zero coverage target is degenerate and the footprint falls back to
the whole (unshrunk) buildable region of area 100. -/
def rowBcrZero : Row :=
  { id := "p1"
    area := 100
    width := 0
    depth := 0
    aspect := Option.none
    building_r := 0
    floor_r := 5 / 2
    setback := 0
    footprint_area := 100
    floors := 3
    floor_height := 36 / 10
    height := 54 / 5 }

/-- The matching building. -/
def bldBcrZero : Building :=
  { id := "p1", footprint := ⟨parcelSquare, 1⟩, height := 54 / 5, faceCount := 6 }

/-- Full evaluation of the per-parcel pipeline with `building_r = 0`. -/
theorem process_bcr_zero :
    processParcel bufferNoop metricsArea ruleFail cfgDemo "p1" (.poly parcelSquare)
      [("building_r", PyVal.num 0)] = .ok (rowBcrZero, bldBcrZero) := by
  have hbeq1 : ("building_r" == "building_r") = true := by decide
  have hbeq2 : ("floor_r" == "building_r") = false := by decide
  simp only [processParcel, cfgDemo, largestPolygonBatch, metricsArea, resolveFar, ruleFail,
    List.lookup, hbeq1, hbeq2, Option.getD, toBcr_zero, deriveBuildable_sq, ringArea_square,
    max_hundred_eps, footprint_zero, area_one, fc_bcr_zero, cast_height_three,
    efc_bcr_zero, rowBcrZero, bldBcrZero]

/-- The result row for the square parcel under `cfgMaxMin`: the raw
ceiling count 5 is first raised to the minimum 3, then silently capped
at the maximum 2. -/
def rowMaxMin : Row :=
  { id := "p1"
    area := 100
    width := 0
    depth := 0
    aspect := Option.none
    building_r := 3 / 5
    floor_r := 5 / 2
    setback := 0
    footprint_area := 60
    floors := 2
    floor_height := 36 / 10
    height := 36 / 5 }

/-- The matching building. -/
def bldMaxMin : Building :=
  { id := "p1", footprint := ⟨parcelSquare, 3 / 5⟩, height := 36 / 5, faceCount := 6 }

/-- Full evaluation of the per-parcel pipeline under `cfgMaxMin`. -/
theorem process_maxmin :
    processParcel bufferNoop metricsArea ruleFail cfgMaxMin "p1" (.poly parcelSquare) [] =
      .ok (rowMaxMin, bldMaxMin) := by
  simp only [processParcel, cfgMaxMin, largestPolygonBatch, metricsArea, resolveFar, ruleFail,
    List.lookup, Option.getD, toBcr_default, deriveBuildable_sq, ringArea_square,
    max_hundred_eps, footprint_demo, area_demo, max_sixty_eps, fc_maxmin, cast_height_two,
    efc_maxmin, rowMaxMin, bldMaxMin]

/-- The one-parcel batch with `building_r = 0` completes. -/
theorem run_batch_bcr_zero :
    run_batch bufferNoop metricsArea ruleFail cfgDemo
      [("p1", .poly parcelSquare, [("building_r", PyVal.num 0)])] =
      .ok ([rowBcrZero], [bldBcrZero]) := by
  simp only [run_batch, process_bcr_zero]

/-- The one-parcel batch under the inverted clamp completes. -/
theorem run_batch_maxmin :
    run_batch bufferNoop metricsArea ruleFail cfgMaxMin [("p1", .poly parcelSquare, [])] =
      .ok ([rowMaxMin], [bldMaxMin]) := by
  simp only [run_batch, process_maxmin]

/-! ## Claim C2 -/

/-- The code's clamp `min (max raw mn) mx` agrees with the spec's
`max mn (min raw mx)` whenever `mn ≤ mx`, and yields a count within the
bounds. -/
theorem floor_count_bounds (pa far fpA : ℚ) (mn mx : ℤ) (h : mn ≤ mx) :
    floor_count pa far fpA mn mx = max mn (min ⌈pa * far / fpA⌉ mx) ∧
    mn ≤ floor_count pa far fpA mn mx ∧ floor_count pa far fpA mn mx ≤ mx := by
  unfold floor_count
  generalize ⌈pa * far / fpA⌉ = k
  omega

/-- C2: the sizer computes the ceiling of permitted floor area over
footprint area, clamps it into `[minimum, maximum]`, and the pipeline's
height is exactly `floor_count * floor_height`. -/
theorem claim_C2 :
    (∀ (pa far fpA : ℚ) (mn mx : ℤ), mn ≤ mx →
      floor_count pa far fpA mn mx = max mn (min ⌈pa * far / fpA⌉ mx) ∧
      mn ≤ floor_count pa far fpA mn mx ∧ floor_count pa far fpA mn mx ≤ mx) ∧
    (∀ (bufferFn : List Pt → ℚ → PolyGeom) (metricsFn : List Pt → Except String Metrics)
      (far_rule : Metrics → Except String ℚ) (cfg : BatchConfig) (pid : String)
      (geom : PolyGeom) (props : Props) (row : Row) (bld : Building),
      1 ≤ cfg.min_floors → cfg.min_floors ≤ cfg.max_floors → 0 < cfg.floor_height →
      processParcel bufferFn metricsFn far_rule cfg pid geom props = Except.ok (row, bld) →
      cfg.min_floors ≤ row.floors ∧ row.floors ≤ cfg.max_floors ∧
      row.height = (row.floors : ℚ) * cfg.floor_height ∧
      row.floor_height = cfg.floor_height) := by
  constructor
  · intro pa far fpA mn mx h
    exact floor_count_bounds pa far fpA mn mx h
  · intro bf mf fr cfg pid geom props row bld h1 h2 h3 hok
    simp only [processParcel] at hok
    split at hok
    · exact Except.noConfusion hok
    · split at hok
      · exact Except.noConfusion hok
      · split at hok
        · exact Except.noConfusion hok
        · split at hok
          · exact Except.noConfusion hok
          · rw [Except.ok.injEq, Prod.mk.injEq] at hok
            obtain ⟨hrow, hbld⟩ := hok
            rw [← hrow]
            obtain ⟨hbound1, hbound2⟩ := (floor_count_bounds _ _ _ _ _ h2).2
            exact ⟨hbound1, hbound2, rfl, rfl⟩

/-- C2 witness: the sizer facts at the spec's end-to-end numbers
(`2400 × 3 / 1440`, floors 1..60), and the pipeline facts on the fully
evaluated demo parcel. -/
theorem claim_C2_witness :
    (1 : ℤ) ≤ 60 ∧
    (floor_count 2400 3 1440 1 60 = max 1 (min ⌈(2400 : ℚ) * 3 / 1440⌉ 60) ∧
      (1 : ℤ) ≤ floor_count 2400 3 1440 1 60 ∧ floor_count 2400 3 1440 1 60 ≤ 60) ∧
    (1 ≤ cfgDemo.min_floors ∧ cfgDemo.min_floors ≤ cfgDemo.max_floors ∧
      0 < cfgDemo.floor_height) ∧
    processParcel bufferNoop metricsArea ruleFail cfgDemo "p1" (.poly parcelSquare) [] =
      Except.ok (rowDemo, bldDemo) ∧
    (cfgDemo.min_floors ≤ rowDemo.floors ∧ rowDemo.floors ≤ cfgDemo.max_floors ∧
      rowDemo.height = (rowDemo.floors : ℚ) * cfgDemo.floor_height ∧
      rowDemo.floor_height = cfgDemo.floor_height) :=
  ⟨by norm_num,
   claim_C2.1 2400 3 1440 1 60 (by norm_num),
   ⟨by norm_num [cfgDemo], by norm_num [cfgDemo], by norm_num [cfgDemo]⟩,
   process_demo,
   claim_C2.2 bufferNoop metricsArea ruleFail cfgDemo "p1" (.poly parcelSquare) [] rowDemo
     bldDemo (by norm_num [cfgDemo]) (by norm_num [cfgDemo]) (by norm_num [cfgDemo])
     process_demo⟩

/-! ## Claim C6 -/

/-- C6: whatever the geometry engine's inward offset returns, if it is
empty or of area at most `1e-9`, the buildable-footprint derivation
returns the original parcel boundary unshrunk, and does not raise. -/
theorem claim_C6 :
    ∀ (bufferFn : List Pt → ℚ → PolyGeom) (poly : List Pt) (setback : ℚ),
      ((bufferFn poly setback).isEmptyB = true ∨ (bufferFn poly setback).area ≤ eps) →
      deriveBuildable bufferFn poly setback = .ok poly := by
  intro bf poly sb h
  by_cases hsb : sb = 0
  · subst hsb
    simp [deriveBuildable, largestPolygonBatch]
  · have hsb' : sb ≠ 0 := hsb
    simp only [deriveBuildable, if_pos hsb', if_pos h]
    rfl

/-- C6 witness: an offset that empties the square parcel falls back to
the square itself. -/
theorem claim_C6_witness :
    ((bufferEmpty parcelSquare 1).isEmptyB = true ∨ (bufferEmpty parcelSquare 1).area ≤ eps) ∧
    deriveBuildable bufferEmpty parcelSquare 1 = .ok parcelSquare :=
  ⟨Or.inl rfl, claim_C6 bufferEmpty parcelSquare 1 (Or.inl rfl)⟩

/-! ## Claim C7 -/

/-- C7 counterexample: `run_batch` performs no configuration validation.
A batch with a non-positive floor height completes (vacuously, with no
parcels, so nothing is ever raised at batch start), and a batch whose
maximum floor count (2) is below its minimum (3) completes normally,
silently clamping the floor count to the maximum, contradicting the
claim that these are raised once at batch start and abort the batch. -/
theorem claim_C7_counterexample :
    cfgNegFH.floor_height ≤ 0 ∧
    run_batch bufferNoop metricsArea ruleFail cfgNegFH [] = .ok ([], []) ∧
    cfgMaxMin.max_floors < cfgMaxMin.min_floors ∧
    run_batch bufferNoop metricsArea ruleFail cfgMaxMin [("p1", .poly parcelSquare, [])] =
      .ok ([rowMaxMin], [bldMaxMin]) ∧
    rowMaxMin.floors = 2 :=
  ⟨by norm_num [cfgNegFH], rfl, by norm_num [cfgMaxMin], run_batch_maxmin, rfl⟩

/-- C7 (amended): the single-parcel variant `compute_buildable_volume`
rejects a non-positive floor-area ratio, a non-positive floor height,
and a minimum floor count below 1 with an error at entry, before any
geometry work; the batch pipeline `run_batch` itself performs no
batch-start configuration validation — in particular a maximum floor
count below the minimum silently clamps the floor count to the maximum
instead of aborting. -/
theorem claim_C7_amended :
    (∀ (bufferFn : PolyGeom → ℚ → PolyGeom) (g : PolyGeom) (far sb fh : ℚ) (mf : ℤ),
      far ≤ 0 ∨ fh ≤ 0 ∨ mf < 1 →
      ∃ msg, compute_buildable_volume bufferFn g far sb fh mf = .error msg) ∧
    run_batch bufferNoop metricsArea ruleFail cfgMaxMin [("p1", .poly parcelSquare, [])] =
      .ok ([rowMaxMin], [bldMaxMin]) := by
  constructor
  · intro bf g far sb fh mf h
    unfold compute_buildable_volume
    by_cases h1 : far ≤ 0
    · rw [if_pos h1]; exact ⟨_, rfl⟩
    · rw [if_neg h1]
      by_cases h2 : fh ≤ 0
      · rw [if_pos h2]; exact ⟨_, rfl⟩
      · rw [if_neg h2]
        by_cases h3 : mf < 1
        · rw [if_pos h3]; exact ⟨_, rfl⟩
        · rcases h with h | h | h
          · exact absurd h h1
          · exact absurd h h2
          · exact absurd h h3
  · exact run_batch_maxmin

/-- C7 witness: a negative floor-area ratio is rejected at entry. -/
theorem claim_C7_witness :
    ((-1 : ℚ) ≤ 0 ∨ (36 / 10 : ℚ) ≤ 0 ∨ (1 : ℤ) < 1) ∧
    (∃ msg, compute_buildable_volume bufferIdent (.poly parcelSquare) (-1) 0 (36 / 10) 1 =
      .error msg) :=
  ⟨Or.inl (by norm_num),
   claim_C7_amended.1 bufferIdent (.poly parcelSquare) (-1) 0 (36 / 10) 1
     (Or.inl (by norm_num))⟩

/-! ## Claim C1 -/

/-- C1 counterexample: with a per-parcel coverage ratio of `0` the
coverage target is degenerate, the footprint falls back to the whole
buildable region (area 100), and `footprint_area ≤ parcel_area ×
coverage_ratio + eps` fails (`100 > 0 + 1e-9`); so the claim's second
inequality does not hold for every parcel processed by the batch
pipeline. -/
theorem claim_C1_counterexample :
    (run_batch bufferNoop metricsArea ruleFail cfgDemo
        [("p1", .poly parcelSquare, [("building_r", PyVal.num 0)])]).map
      (fun out => out.1.map (fun r => (r.building_r, r.area, r.footprint_area))) =
      .ok [((0 : ℚ), (100 : ℚ), (100 : ℚ))] ∧
    ¬ ((100 : ℚ) ≤ 100 * 0 + eps) := by
  constructor
  · rw [run_batch_bcr_zero]
    simp [Except.map, rowBcrZero]
  · norm_num [eps]

/-- C1 (amended): the derived footprint never exceeds the buildable
(setback) region's area; whenever the coverage target
`parcel_area × coverage_ratio` is above the degeneracy threshold `1e-9`,
the footprint's area is also at most the target plus `1e-9` (when the
target is degenerate the code instead falls back to the full buildable
region); the area-matching step only ever shrinks — its squared scale
factor `min(target/area, 1)` never exceeds `1` — and uniformly scaling a
closed ring about any centre by `s` multiplies the area by `s^2`, which
is what the squared-factor bookkeeping means geometrically. -/
theorem claim_C1_amended :
    (∀ (ring : List Pt) (plot_area bcr : ℚ),
      (deriveFootprint ring plot_area bcr).area ≤ ringArea ring) ∧
    (∀ (ring : List Pt) (plot_area bcr : ℚ), eps < plot_area * bcr →
      (deriveFootprint ring plot_area bcr).area ≤ plot_area * bcr + eps) ∧
    (∀ (ring : List Pt) (target : ℚ), (scale_to_area ⟨ring, 1⟩ target).s2 ≤ 1) ∧
    (∀ (c : Pt) (s : ℚ) (p : Pt) (l : List Pt), l.getLastD p = p →
      ringArea (scaleRingAbout c s (p :: l)) = s ^ 2 * ringArea (p :: l)) := by
  have heps : (0 : ℚ) < eps := by norm_num [eps]
  refine ⟨?_, ?_, ?_, ?_⟩
  · intro ring pa bcr
    have hA := ringArea_nonneg ring
    simp only [deriveFootprint, scale_to_area, SPoly.area, SPoly.isEmptyB]
    split_ifs <;>
      simp only [SPoly.area, one_mul, ringArea_nil] <;>
      first
        | exact le_refl _
        | exact hA
        | exact mul_le_of_le_one_left hA (min_le_right _ _)
  · intro ring pa bcr ht
    have hA := ringArea_nonneg ring
    simp only [deriveFootprint, scale_to_area, SPoly.area, SPoly.isEmptyB]
    split_ifs with h1 h2 h3 h4
    · -- degenerate buildable region: the fallback keeps the unscaled ring
      rcases h1 with h1 | h1
      · have hnil : ring = [] := List.isEmpty_iff.mp h1
        subst hnil
        show (1 : ℚ) * ringArea [] ≤ pa * bcr + eps
        rw [ringArea_nil]
        linarith
      · show (1 : ℚ) * ringArea ring ≤ pa * bcr + eps
        rw [one_mul] at h1 ⊢
        linarith
    · -- degenerate target, contradicting the hypothesis
      exact absurd h2 (not_le.mpr ht)
    · exact absurd h2 (not_le.mpr ht)
    · -- scaled candidate judged degenerate: impossible, its area is min(target, area) > eps
      exfalso
      rw [not_or] at h1
      have hApos : 0 < ringArea ring := by
        have h1' := h1.2
        rw [one_mul] at h1'
        exact lt_trans heps (not_le.mp h1')
      rcases h4 with h4 | h4
      · exact h1.1 h4
      · have h4' : (1 * (min (pa * bcr / (1 * ringArea ring)) 1)) * ringArea ring ≤ eps := h4
        rw [one_mul, one_mul, min_mul_of_nonneg _ _ (le_of_lt hApos),
          div_mul_cancel₀ _ (ne_of_gt hApos), one_mul] at h4'
        have hAeps : eps < ringArea ring := by
          have h1' := h1.2
          rw [one_mul] at h1'
          exact not_le.mp h1'
        exact absurd h4' (not_le.mpr (lt_min ht hAeps))
    · -- the scaled footprint: its area is min(target, area) ≤ target
      rw [not_or] at h1
      have hApos : 0 < ringArea ring := by
        have h1' := h1.2
        rw [one_mul] at h1'
        exact lt_trans heps (not_le.mp h1')
      show (1 * (min (pa * bcr / (1 * ringArea ring)) 1)) * ringArea ring ≤ pa * bcr + eps
      rw [one_mul, one_mul, min_mul_of_nonneg _ _ (le_of_lt hApos),
        div_mul_cancel₀ _ (ne_of_gt hApos), one_mul]
      exact le_trans (min_le_left _ _) (by linarith)
  · intro ring target
    simp only [scale_to_area]
    split_ifs <;> simp [min_le_right]
  · intro c s p l hcl
    exact ringArea_scaleRingAbout c s p l hcl

/-- C1 witness: the amended claim instantiated on the demo square with
coverage `0.6` (target 60), plus the scaling lemma on the square about
the origin with factor 2. -/
theorem claim_C1_witness :
    eps < 100 * (3 / 5) ∧
    (deriveFootprint parcelSquare 100 (3 / 5)).area ≤ ringArea parcelSquare ∧
    (deriveFootprint parcelSquare 100 (3 / 5)).area ≤ 100 * (3 / 5) + eps ∧
    ([((10 : ℚ), (0 : ℚ)), (10, 10), (0, 10), (0, 0)] : List Pt).getLastD (0, 0) = (0, 0) ∧
    ringArea (scaleRingAbout (0, 0) 2
        (((0 : ℚ), (0 : ℚ)) :: [((10 : ℚ), (0 : ℚ)), (10, 10), (0, 10), (0, 0)])) =
      2 ^ 2 * ringArea (((0 : ℚ), (0 : ℚ)) :: [((10 : ℚ), (0 : ℚ)), (10, 10), (0, 10), (0, 0)]) :=
  ⟨by norm_num [eps],
   claim_C1_amended.1 parcelSquare 100 (3 / 5),
   claim_C1_amended.2.1 parcelSquare 100 (3 / 5) (by norm_num [eps]),
   rfl,
   claim_C1_amended.2.2.2 (0, 0) 2 (0, 0) [(10, 0), (10, 10), (0, 10), (0, 0)] rfl⟩

/-! ## Claim C4 -/

/-- `volume_generator._largest_polygon` passes a non-empty polygon
through. -/
theorem largestPolygonVG_poly (r : List Pt) (hne : r ≠ []) :
    largestPolygonVG (.poly r) = .ok r := by
  simp [largestPolygonVG, ExtGeom.isEmptyB, hne]

/-- C4: for a polygon with `n ≥ 3` exterior vertices (closing vertex
dropped) and positive height, the extruder returns exactly `n + 2`
faces: the bottom ring at `z = 0` in original order, the top ring at
`z = height` reversed, and one quadrilateral
`(bottom[i], bottom[i+1], top[i+1], top[i])` per edge, indices mod `n`. -/
theorem claim_C4 (ring : List Pt) (h : ℚ) (hh : 0 < h) (hn : 3 ≤ ring.dropLast.length) :
    ∃ F, extrude_polygon (.poly ring) h = .ok F ∧
      F.length = ring.dropLast.length + 2 ∧
      F.getD 0 [] = ring.dropLast.map (fun p => (p.1, p.2, (0 : ℚ))) ∧
      F.getD 1 [] = (ring.dropLast.map (fun p => (p.1, p.2, h))).reverse ∧
      (∀ i < ring.dropLast.length,
        F.getD (i + 2) [] =
          [(ring.dropLast.map (fun p => (p.1, p.2, (0 : ℚ)))).getD i pt3zero,
           (ring.dropLast.map (fun p => (p.1, p.2, (0 : ℚ)))).getD
             ((i + 1) % ring.dropLast.length) pt3zero,
           (ring.dropLast.map (fun p => (p.1, p.2, h))).getD
             ((i + 1) % ring.dropLast.length) pt3zero,
           (ring.dropLast.map (fun p => (p.1, p.2, h))).getD i pt3zero]) := by
  have hne : ring ≠ [] := by
    intro hcon
    rw [hcon] at hn
    simp at hn
  have hlv : largestPolygonVG (.poly ring) = .ok ring := largestPolygonVG_poly ring hne
  refine ⟨(ring.dropLast.map fun p => (p.1, p.2, (0 : ℚ))) ::
      (ring.dropLast.map fun p => (p.1, p.2, h)).reverse ::
      ((List.range ring.dropLast.length).map fun i =>
        [(ring.dropLast.map fun p => (p.1, p.2, (0 : ℚ))).getD i pt3zero,
         (ring.dropLast.map fun p => (p.1, p.2, (0 : ℚ))).getD
           ((i + 1) % ring.dropLast.length) pt3zero,
         (ring.dropLast.map fun p => (p.1, p.2, h)).getD
           ((i + 1) % ring.dropLast.length) pt3zero,
         (ring.dropLast.map fun p => (p.1, p.2, h)).getD i pt3zero]),
    ?_, ?_, rfl, rfl, ?_⟩
  · simp only [extrude_polygon, hlv]
    rw [if_neg (not_le.mpr hh), if_neg (not_lt.mpr hn)]
  · simp only [List.length_cons, List.length_map, List.length_range]
  · intro i hi
    simp only [List.getD_cons_succ]
    rw [List.getD_eq_getElem?_getD, List.getElem?_map, List.getElem?_range hi,
      Option.map_some', Option.getD_some]

/-- C4 witness: the claim instantiated on the square (4 vertices) at
height 2. -/
theorem claim_C4_witness :
    0 < (2 : ℚ) ∧ 3 ≤ parcelSquare.dropLast.length ∧
    (∃ F, extrude_polygon (.poly parcelSquare) 2 = .ok F ∧
      F.length = parcelSquare.dropLast.length + 2 ∧
      F.getD 0 [] = parcelSquare.dropLast.map (fun p => (p.1, p.2, (0 : ℚ))) ∧
      F.getD 1 [] = (parcelSquare.dropLast.map (fun p => (p.1, p.2, (2 : ℚ)))).reverse ∧
      (∀ i < parcelSquare.dropLast.length,
        F.getD (i + 2) [] =
          [(parcelSquare.dropLast.map (fun p => (p.1, p.2, (0 : ℚ)))).getD i pt3zero,
           (parcelSquare.dropLast.map (fun p => (p.1, p.2, (0 : ℚ)))).getD
             ((i + 1) % parcelSquare.dropLast.length) pt3zero,
           (parcelSquare.dropLast.map (fun p => (p.1, p.2, (2 : ℚ)))).getD
             ((i + 1) % parcelSquare.dropLast.length) pt3zero,
           (parcelSquare.dropLast.map (fun p => (p.1, p.2, (2 : ℚ)))).getD i pt3zero])) :=
  ⟨by norm_num, by decide, claim_C4 parcelSquare 2 (by norm_num) (by decide)⟩

/-! ## Claim C10 -/

/-- The running maximum of a fold that keeps the first strictly larger
element stays among the candidates. -/
theorem foldl_largest_mem :
    ∀ (t : List (List Pt)) (p : List Pt),
      t.foldl (fun best g => if ringArea best < ringArea g then g else best) p ∈ p :: t := by
  intro t
  induction t with
  | nil =>
    intro p
    simp
  | cons q t ih =>
    intro p
    rw [List.foldl_cons]
    rcases List.mem_cons.mp (ih (if ringArea p < ringArea q then q else p)) with h1 | h1
    · rw [h1]
      split_ifs
      · exact List.mem_cons_of_mem _ (List.mem_cons_self _ _)
      · exact List.mem_cons_self _ _
    · exact List.mem_cons_of_mem _ (List.mem_cons_of_mem _ h1)

/-- `max(parts, key=area)` returns one of the parts. -/
theorem maxByArea_mem (parts : List (List Pt)) (h : parts ≠ []) :
    maxByArea parts ∈ parts := by
  cases parts with
  | nil => exact absurd rfl h
  | cons p t =>
    simp only [maxByArea]
    exact foldl_largest_mem t p

/-- If some piece passes the extruder's filter, the multi-geometry is
not all-empty. -/
theorem all_empty_eq_false_of_vgParts (rs : List (List Pt)) (hvg : vgParts rs ≠ []) :
    rs.all (·.isEmpty) = false := by
  by_contra hall
  have hall' : rs.all (·.isEmpty) = true := by
    cases hb : rs.all (·.isEmpty) with
    | true => rfl
    | false => exact absurd hb hall
  rw [List.all_eq_true] at hall'
  apply hvg
  rw [vgParts, List.filter_eq_nil_iff]
  intro a ha
  have := hall' a ha
  simp [this]

/-- `volume_generator._largest_polygon` on a multi-polygon with at least
one qualifying piece. -/
theorem largestPolygonVG_multi (rs : List (List Pt)) (hvg : vgParts rs ≠ []) :
    largestPolygonVG (.multi rs) = .ok (maxByArea (vgParts rs)) := by
  have hall : rs.all (·.isEmpty) = false := all_empty_eq_false_of_vgParts rs hvg
  have hpartsne : (vgParts rs).isEmpty = false := List.isEmpty_eq_false.mpr hvg
  simp only [largestPolygonVG, ExtGeom.isEmptyB, hall, hpartsne, Bool.false_eq_true,
    if_false]

/-- C10: at its public interface the extruder accepts a multi-polygon,
silently extruding only the largest piece that is non-empty with
positive area; an empty geometry, a multi-polygon with no such piece,
and a non-polygonal geometry are all errors. -/
theorem claim_C10 :
    (∀ (rs : List (List Pt)) (h : ℚ), 0 < h → vgParts rs ≠ [] →
      extrude_polygon (.multi rs) h = extrude_polygon (.poly (maxByArea (vgParts rs))) h) ∧
    (∀ (rs : List (List Pt)) (h : ℚ), 0 < h → vgParts rs = [] →
      (extrude_polygon (.multi rs) h).isOk = false) ∧
    (∀ h : ℚ, 0 < h → (extrude_polygon .none h).isOk = false) ∧
    (∀ h : ℚ, 0 < h → (extrude_polygon (.poly []) h).isOk = false) ∧
    (∀ (h : ℚ) (b : Bool), 0 < h → (extrude_polygon (.other b) h).isOk = false) := by
  refine ⟨?_, ?_, ?_, ?_, ?_⟩
  · intro rs h hh hvg
    have h1 : largestPolygonVG (.multi rs) = .ok (maxByArea (vgParts rs)) :=
      largestPolygonVG_multi rs hvg
    have hmem : maxByArea (vgParts rs) ∈ vgParts rs := maxByArea_mem _ hvg
    have hne : maxByArea (vgParts rs) ≠ [] := by
      have hpred := (List.mem_filter.mp hmem).2
      intro hcon
      rw [hcon] at hpred
      simp at hpred
    have h2 : largestPolygonVG (.poly (maxByArea (vgParts rs))) = .ok (maxByArea (vgParts rs)) :=
      largestPolygonVG_poly _ hne
    simp only [extrude_polygon, h1, h2]
  · intro rs h hh hvg
    have hlv : ∃ e, largestPolygonVG (.multi rs) = .error e := by
      simp only [largestPolygonVG]
      by_cases hall : ExtGeom.isEmptyB (.multi rs) = true
      · rw [if_pos hall]
        exact ⟨_, rfl⟩
      · rw [if_neg hall, if_pos (by rw [List.isEmpty_iff]; exact hvg)]
        exact ⟨_, rfl⟩
    obtain ⟨e, he⟩ := hlv
    simp [extrude_polygon, he, not_le.mpr hh, Except.isOk, Except.toBool]
  · intro h hh
    simp [extrude_polygon, largestPolygonVG, ExtGeom.isEmptyB, not_le.mpr hh, Except.isOk, Except.toBool]
  · intro h hh
    simp [extrude_polygon, largestPolygonVG, ExtGeom.isEmptyB, not_le.mpr hh, Except.isOk, Except.toBool]
  · intro h b hh
    cases b <;>
      simp [extrude_polygon, largestPolygonVG, ExtGeom.isEmptyB, not_le.mpr hh, Except.isOk, Except.toBool]

/-- C10 witness: a multi-polygon of an empty piece and the square
extrudes exactly as the square alone does. -/
theorem claim_C10_witness :
    0 < (1 : ℚ) ∧ vgParts [[], parcelSquare] ≠ [] ∧
    extrude_polygon (.multi [[], parcelSquare]) 1 =
      extrude_polygon (.poly (maxByArea (vgParts [[], parcelSquare]))) 1 := by
  have hpe : parcelSquare.isEmpty = false := rfl
  have hd : (0 : ℚ) < 100 := by norm_num
  have hvg : vgParts [[], parcelSquare] = [parcelSquare] := by
    simp [vgParts, List.filter, hpe, ringArea_square, decide_eq_true hd]
  have hne2 : vgParts [[], parcelSquare] ≠ [] := by
    rw [hvg]
    exact List.cons_ne_nil _ _
  exact ⟨by norm_num, hne2, claim_C10.1 [[], parcelSquare] 1 (by norm_num) hne2⟩
